import Mathlib

/-!
Shallow embedding of the pole-vote-system repository's Vote Admission and
Live Aggregation subsystem: the vote ledger with its uniqueness gate
(database/schema.sql, votes table), the expiration gate, the rate limiter,
the identity resolver, the live-update message shape
(frontend/lib/websocket.ts), the poll page's update merge
(frontend/app/poll/[id]/page.tsx) and the WebSocket reconnect policy
(frontend/lib/websocket.ts).
-/

namespace PollVote

/-- The four voting security policy values, from the union type
VotingSecurityOption in frontend/lib/api.ts line 34. -/
inductive VotingSecurityOption where
  | none
  | browser_session
  | ip_address
  | device_fingerprint
deriving DecidableEq

/-- Wire string of each policy value, the string literals of the
frontend union type and of the README's check_security constraint. -/
def VotingSecurityOption.toWire : VotingSecurityOption → String
  | VotingSecurityOption.none => "none"
  | VotingSecurityOption.browser_session => "browser_session"
  | VotingSecurityOption.ip_address => "ip_address"
  | VotingSecurityOption.device_fingerprint => "device_fingerprint"

/-- Read-mostly poll snapshot handed to the admission core: id, option ids,
policy and optional expiration instant (schema.sql polls table). -/
structure PollSnapshot where
  id : String
  optionIds : List String
  policy : VotingSecurityOption
  expiresAt : Option Int

/-- Modelled from the spec: the VoteLedger's state (spec section 4.4); the
backend ledger code is absent from src/. The claimed relation mirrors the
votes table's unique_voter_per_poll pairs (schema.sql lines 28 to 35) and
the count field mirrors options.vote_count (schema.sql lines 20 to 25). -/
structure LedgerState where
  claimed : String → String → Bool
  count : String → String → Int

/-- Result of a ledger admission attempt (spec section 4.4). -/
inductive AdmitResult where
  | admitted (newCounts : List (String × Int))
  | alreadyVoted
  | invalidOption
deriving DecidableEq

/-- The ledger state after a successful atomic claim: the (poll, fingerprint)
pair becomes claimed and the target option's counter is incremented. -/
def claimVote (poll : PollSnapshot) (fp optId : String) (st : LedgerState) : LedgerState :=
  { claimed := fun p f => if p = poll.id ∧ f = fp then true else st.claimed p f
    count := fun p o => if p = poll.id ∧ o = optId then st.count p o + 1 else st.count p o }

/-- Modelled from the spec: VoteLedger.admit (spec section 4.4), absent from
src/. Validates the option, then attempts the atomic (poll, fingerprint)
claim backed by the unique_voter_per_poll constraint; the first caller with
a given pair claims it and increments the counter, later callers get
alreadyVoted with no mutation. -/
def admitVote (poll : PollSnapshot) (fp optId : String) (st : LedgerState) :
    AdmitResult × LedgerState :=
  if poll.optionIds.contains optId then
    if st.claimed poll.id fp then (AdmitResult.alreadyVoted, st)
    else
      (AdmitResult.admitted
        (poll.optionIds.map fun o => (o, (claimVote poll fp optId st).count poll.id o)),
        claimVote poll fp optId st)
  else (AdmitResult.invalidOption, st)

/-- A sequence of ledger admission attempts on one poll with one
fingerprint, serialized as the ledger's per-poll admission point does. -/
def runSeq (poll : PollSnapshot) (fp : String) (opts : List String) (st : LedgerState) :
    List AdmitResult × LedgerState :=
  match opts with
  | [] => ([], st)
  | o :: rest =>
    let r := admitVote poll fp o st
    let rs := runSeq poll fp rest r.2
    (r.1 :: rs.1, rs.2)

/-- Concrete poll used by the witnesses. -/
def pollW : PollSnapshot :=
  { id := "P", optionIds := ["A", "B"], policy := VotingSecurityOption.ip_address,
    expiresAt := Option.none }

/-- Empty ledger used by the witnesses. -/
def stInit : LedgerState := { claimed := fun _ _ => false, count := fun _ _ => 0 }

/-- Fully claimed ledger used by the already-voted witness. -/
def stClaimed : LedgerState := { claimed := fun _ _ => true, count := fun _ _ => 3 }

/-- Per-request context the identity resolver reads: origin network address,
declared client language header, the client-held localStorage session token
(api.ts getOrCreateSessionId), the client-held IndexedDB device session id
(deviceSession.ts getOrCreateDeviceSessionId) and the per-call randomness
used by the none policy. -/
structure RequestContext where
  ip : String
  lang : String
  sessionToken : Option String
  deviceSessionId : Option String
  nonce : String

/-- Modelled from the spec: the backend's keyed one-way voter-hash
(HMAC-SHA256 per the README), absent from src/, abstracted as a
deterministic function of the key and the identity tuple. -/
def fingerprintHash (salt : String) (parts : List String) : String :=
  String.intercalate ":" (salt :: parts)

/-- Identity resolution failure. -/
inductive ResolveFailure where
  | missingIdentity
deriving DecidableEq

/-- Modelled from the spec: IdentityResolver.resolve (spec section 4.1),
absent from src/. none uses fresh per-call randomness; browser_session
hashes the client session token and fails with missingIdentity when it is
absent; ip_address hashes the origin address; device_fingerprint hashes
the origin address and language header (README: SHA256 of
IP:Language:Poll_ID), reading no client-held state. -/
def resolve (salt : String) (policy : VotingSecurityOption) (pollId : String)
    (ctx : RequestContext) : Except ResolveFailure String :=
  match policy with
  | VotingSecurityOption.none => Except.ok (fingerprintHash salt [pollId, ctx.nonce])
  | VotingSecurityOption.browser_session =>
    match ctx.sessionToken with
    | Option.none => Except.error ResolveFailure.missingIdentity
    | Option.some t => Except.ok (fingerprintHash salt [pollId, t])
  | VotingSecurityOption.ip_address => Except.ok (fingerprintHash salt [pollId, ctx.ip])
  | VotingSecurityOption.device_fingerprint =>
    Except.ok (fingerprintHash salt [pollId, ctx.ip, ctx.lang])

/-- Modelled from the spec: ExpirationGate.isOpen (spec section 4.3), absent
from src/: a poll with no expiration is always open, otherwise it is open
exactly while now is strictly before expires_at. -/
def isOpen (expiresAt : Option Int) (now : Int) : Bool :=
  match expiresAt with
  | Option.none => true
  | Option.some e => decide (now < e)

/-- The rate limiter's rolling window length in seconds (README: 5 requests
per minute per IP). -/
def rateWindow : Int := 60

/-- The rate limiter's per-window admission budget (README line 22). -/
def rateLimitMax : Nat := 5

/-- Whether an attempt timestamp lies in the rolling window ending at now. -/
def inWindow (now t : Int) : Bool :=
  decide (now - rateWindow < t) && decide (t ≤ now)

/-- Number of recorded attempts by an origin inside the rolling window. -/
def windowCount (origin : String) (now : Int) (log : List (String × Int)) : Nat :=
  (log.filter fun e => decide (e.1 = origin) && inWindow now e.2).length

/-- Modelled from the spec: RateLimiter.allow (spec section 4.2), absent
from src/: an origin is allowed while it has made fewer than rateLimitMax
attempts inside the rolling window, independent of which poll. -/
def rateAllow (origin : String) (now : Int) (log : List (String × Int)) : Bool :=
  decide (windowCount origin now log < rateLimitMax)

/-- Outcomes of the externally callable admission operation (spec 4.6). -/
inductive Outcome where
  | accepted
  | rateLimited
  | pollExpired
  | missingIdentity
  | alreadyVoted
  | invalidOption
deriving DecidableEq

/-- State of the whole admission subsystem: the ledger plus the rate
limiter's recorded attempt log. -/
structure SystemState where
  ledger : LedgerState
  rlLog : List (String × Int)

/-- Mapping of ledger results to service outcomes (spec section 4.6). -/
def outcomeOf : AdmitResult → Outcome
  | AdmitResult.admitted _ => Outcome.accepted
  | AdmitResult.alreadyVoted => Outcome.alreadyVoted
  | AdmitResult.invalidOption => Outcome.invalidOption

/-- Modelled from the spec: VoteAdmissionService.admit (spec section 4.6),
absent from src/. Orchestrates in request order: RateLimiter.allow, then
ExpirationGate.isOpen, then IdentityResolver.resolve, then the ledger
admission; every attempt is recorded in the rate limiter's log. -/
def admitFull (salt : String) (poll : PollSnapshot) (ctx : RequestContext)
    (origin optId : String) (now : Int) (sys : SystemState) : Outcome × SystemState :=
  let sys1 : SystemState := { sys with rlLog := (origin, now) :: sys.rlLog }
  if rateAllow origin now sys.rlLog = false then (Outcome.rateLimited, sys1)
  else if isOpen poll.expiresAt now = false then (Outcome.pollExpired, sys1)
  else
    match resolve salt poll.policy poll.id ctx with
    | Except.error _ => (Outcome.missingIdentity, sys1)
    | Except.ok fp =>
      let a := admitVote poll fp optId sys1.ledger
      (outcomeOf a.1, { sys1 with ledger := a.2 })

/-- One admission request as the service receives it. -/
structure VoteRequest where
  poll : PollSnapshot
  ctx : RequestContext
  origin : String
  optId : String
  time : Int

/-- A sequence of admission requests run through the service in order. -/
def runFull (salt : String) (reqs : List VoteRequest) (sys : SystemState) :
    List Outcome × SystemState :=
  match reqs with
  | [] => ([], sys)
  | r :: rest =>
    let a := admitFull salt r.poll r.ctx r.origin r.optId r.time sys
    let b := runFull salt rest a.2
    (a.1 :: b.1, b.2)

/-- Request context used by witnesses: client storage populated. -/
def ctxA : RequestContext :=
  { ip := "1.2.3.4", lang := "en-US", sessionToken := Option.some "tok1",
    deviceSessionId := Option.some "dev1", nonce := "n1" }

/-- Request context used by witnesses: client storage cleared, fresh ids. -/
def ctxB : RequestContext :=
  { ip := "1.2.3.4", lang := "en-US", sessionToken := Option.none,
    deviceSessionId := Option.none, nonce := "n2" }

/-- Empty system state used by witnesses. -/
def sysInit : SystemState := { ledger := stInit, rlLog := [] }

/-- Poll with an expiration instant, used by the expiration witness. -/
def pollE : PollSnapshot :=
  { id := "Q", optionIds := ["X"], policy := VotingSecurityOption.device_fingerprint,
    expiresAt := Option.some 100 }

/-- Request from origin 1.2.3.4 at a given time, used by the rate witness. -/
def reqW (t : Int) : VoteRequest :=
  { poll := pollW, ctx := ctxA, origin := "1.2.3.4", optId := "A", time := t }

/-- Five requests inside one rolling window, used by the rate witness. -/
def rsW : List VoteRequest := [reqW 0, reqW 10, reqW 20, reqW 30, reqW 40]

/-- One option entry of a live-update message, from the options field of
PollUpdateData in frontend/lib/websocket.ts lines 31 to 35: id, text and
vote_count. The same shape is the frontend's displayed Option record
(frontend/lib/api.ts lines 9 to 13). -/
structure OptionUpdate where
  id : String
  text : String
  vote_count : Int
deriving DecidableEq

/-- The live-update message pushed over the WebSocket, from PollUpdateData
in frontend/lib/websocket.ts lines 27 to 36: poll_id, question,
total_votes and the option list. -/
structure PollUpdateData where
  poll_id : String
  question : String
  total_votes : Int
  options : List OptionUpdate
deriving DecidableEq

/-- Option entry of the message shape exactly as the spec's words state it
(id and vote_count only); a refinement-comparison definition. -/
structure SpecOptionShape where
  id : String
  vote_count : Int
deriving DecidableEq

/-- Message shape exactly as the spec's words state it (poll_id,
total_votes, options); a refinement-comparison definition. -/
structure SpecUpdateShape where
  poll_id : String
  total_votes : Int
  options : List SpecOptionShape
deriving DecidableEq

/-- Projection of the code's message type onto the shape the spec claims. -/
def toSpecShape (m : PollUpdateData) : SpecUpdateShape :=
  { poll_id := m.poll_id, total_votes := m.total_votes,
    options := m.options.map fun o => { id := o.id, vote_count := o.vote_count } }

/-- A row of the polls table (schema.sql lines 11 to 17), the fields the
broadcast needs. -/
structure DbPoll where
  id : String
  question : String
deriving DecidableEq

/-- A row of the options table (schema.sql lines 20 to 25). -/
structure DbOption where
  id : String
  poll_id : String
  text : String
  vote_count : Int
deriving DecidableEq

/-- A row of the votes table (schema.sql lines 28 to 35), holding the
voter_hash, the only voter-identifying datum the system stores. -/
structure VoteRow where
  poll_id : String
  option_id : String
  voter_hash : String
deriving DecidableEq

/-- The database state the broadcaster could read. -/
structure Db where
  polls : List DbPoll
  options : List DbOption
  votes : List VoteRow
deriving DecidableEq

/-- Modelled from the spec: the backend's vote_update broadcast payload
builder, absent from src/, producing the PollUpdateData shape declared in
frontend/lib/websocket.ts lines 27 to 36 from the poll row and the option
rows (aggregate counts) alone. -/
def buildVoteUpdate (p : DbPoll) (opts : List DbOption) : PollUpdateData :=
  let mine := opts.filter fun o => o.poll_id == p.id
  { poll_id := p.id
    question := p.question
    total_votes := (mine.map fun o => o.vote_count).sum
    options := mine.map fun o => { id := o.id, text := o.text, vote_count := o.vote_count } }

/-- The broadcast payload for a poll id, built from the whole database
state; the votes table is in scope but never read. -/
def buildVoteUpdateDb (db : Db) (pollId : String) : Option PollUpdateData :=
  match db.polls.find? (fun p => p.id == pollId) with
  | Option.none => Option.none
  | Option.some p => Option.some (buildVoteUpdate p db.options)

/-- Concrete message used by the shape counterexample. -/
def uMsg1 : PollUpdateData :=
  { poll_id := "P", question := "What?", total_votes := 1,
    options := [{ id := "a", text := "Yes", vote_count := 1 }] }

/-- The same message with question and option text blanked. -/
def uMsg2 : PollUpdateData :=
  { poll_id := "P", question := "", total_votes := 1,
    options := [{ id := "a", text := "", vote_count := 1 }] }

/-- Database with no recorded votes, used by the broadcast witness. -/
def dbA : Db :=
  { polls := [{ id := "P", question := "What?" }],
    options := [{ id := "a", poll_id := "P", text := "Yes", vote_count := 1 }],
    votes := [] }

/-- The same aggregates with a recorded voter hash, used by the witness. -/
def dbB : Db :=
  { polls := [{ id := "P", question := "What?" }],
    options := [{ id := "a", poll_id := "P", text := "Yes", vote_count := 1 }],
    votes := [{ poll_id := "P", option_id := "a", voter_hash := "salted-secret" }] }

/-- The check_security CHECK constraint on polls.voting_security from the
README's documented polls-table DDL (README lines 203 to 210). -/
def checkSecurity (s : String) : Bool :=
  s == "none" || s == "browser_session" || s == "ip_address" || s == "device_fingerprint"

/-- The four policy names exactly as the claim and the spec list them; a
refinement-comparison definition following the spec's words. -/
def specClaimedPolicies : List String :=
  ["none", "session", "ip_address", "device_fingerprint"]

/-- The poll page's lookup into the vote_update options, from the JS Map
built in frontend/app/poll/[id]/page.tsx line 53: for a duplicated id the
last entry wins, as in the JS Map constructor. -/
def updateLookup (updates : List OptionUpdate) (i : String) : Option OptionUpdate :=
  updates.reverse.find? fun u => u.id == i

/-- The per-option merge of frontend/app/poll/[id]/page.tsx lines 56 to 65:
an option present in the update takes the update's vote_count and keeps its
other fields; an option absent from the update is returned unchanged. -/
def mergeOne (updates : List OptionUpdate) (opt : OptionUpdate) : OptionUpdate :=
  match updateLookup updates opt.id with
  | Option.some u => { opt with vote_count := u.vote_count }
  | Option.none => opt

/-- The poll page's merge of a vote_update message into the displayed
option list (frontend/app/poll/[id]/page.tsx lines 48 to 72): a map over
the previously fetched options. -/
def mergeOptions (prev updates : List OptionUpdate) : List OptionUpdate :=
  prev.map (mergeOne updates)

/-- Previously fetched options used by the merge witness. -/
def prevOptsW : List OptionUpdate :=
  [{ id := "a", text := "Alpha", vote_count := 0 },
   { id := "b", text := "Beta", vote_count := 1 }]

/-- Update options used by the merge witness: one known id with a changed
text, one id unknown to the page. -/
def updOptsW : List OptionUpdate :=
  [{ id := "b", text := "IGNORED", vote_count := 7 },
   { id := "z", text := "New", vote_count := 9 }]

/-- WebSocket lifecycle events the PollWebSocket client reacts to. -/
inductive WsEvent where
  | close
  | opened
deriving DecidableEq

/-- maxReconnectAttempts from frontend/lib/websocket.ts line 49. -/
def maxReconnectAttempts : Nat := 5

/-- attemptReconnect from frontend/lib/websocket.ts lines 90 to 96: while
under the limit, increment the counter and schedule a reconnect delayed by
2000 times the new counter value; otherwise do nothing. Returns the new
counter and the scheduled delay, or nothing when giving up. -/
def attemptReconnect (reconnectAttempts : Nat) : Option (Nat × Nat) :=
  if reconnectAttempts < maxReconnectAttempts then
    Option.some (reconnectAttempts + 1, 2000 * (reconnectAttempts + 1))
  else Option.none

/-- One step of the client's reconnect state machine: onclose runs
attemptReconnect (websocket.ts lines 81 to 84), a successful open resets
the counter to 0 (websocket.ts lines 60 to 63). Returns the new counter
and the delay of the scheduled connect attempt, if one was scheduled. -/
def stepEvent (n : Nat) : WsEvent → Nat × Option Nat
  | WsEvent.close =>
    match attemptReconnect n with
    | Option.some p => (p.1, Option.some p.2)
    | Option.none => (n, Option.none)
  | WsEvent.opened => (0, Option.none)

/-- A run of lifecycle events: final counter and the list of delays of all
scheduled reconnect attempts, in order. -/
def runEvents : Nat → List WsEvent → Nat × List Nat
  | n, [] => (n, [])
  | n, e :: es =>
    let s := stepEvent n e
    let r := runEvents s.1 es
    (r.1, s.2.toList ++ r.2)

theorem admitVote_claimed (poll : PollSnapshot) (fp optId : String) (st : LedgerState)
    (hmem : optId ∈ poll.optionIds)
    (hcl : st.claimed poll.id fp = true) :
    admitVote poll fp optId st = (AdmitResult.alreadyVoted, st) := by
  simp [admitVote, hmem, hcl]

theorem runSeq_claimed (poll : PollSnapshot) (fp : String) :
    ∀ (opts : List String) (st : LedgerState),
      (∀ o ∈ opts, o ∈ poll.optionIds) →
      st.claimed poll.id fp = true →
      runSeq poll fp opts st = (List.replicate opts.length AdmitResult.alreadyVoted, st) := by
  intro opts
  induction opts with
  | nil => intro st _ _; simp [runSeq]
  | cons o rest ih =>
    intro st hval hcl
    have h1 := admitVote_claimed poll fp o st (hval o (by simp)) hcl
    have h2 := ih st (fun x hx => hval x (by simp [hx])) hcl
    simp [runSeq, h1, h2, List.replicate_succ]

theorem claimVote_claimed_self (poll : PollSnapshot) (fp optId : String) (st : LedgerState) :
    (claimVote poll fp optId st).claimed poll.id fp = true := by
  simp [claimVote]

theorem claimVote_count_self (poll : PollSnapshot) (fp optId : String) (st : LedgerState) :
    (claimVote poll fp optId st).count poll.id optId = st.count poll.id optId + 1 := by
  simp [claimVote]

theorem admitVote_fresh (poll : PollSnapshot) (fp optId : String) (st : LedgerState)
    (hmem : optId ∈ poll.optionIds)
    (hcl : st.claimed poll.id fp = false) :
    admitVote poll fp optId st =
      (AdmitResult.admitted
        (poll.optionIds.map fun o => (o, (claimVote poll fp optId st).count poll.id o)),
        claimVote poll fp optId st) := by
  simp [admitVote, hmem, hcl]

/-- C1: among any sequence of ledger admission attempts on one poll with the
same fingerprint (valid options, fingerprint not yet claimed), exactly the
first returns Admitted, every other attempt returns AlreadyVoted, and the
first attempt's chosen option's count increases by exactly 1 over the whole
sequence. -/
theorem admit_same_fingerprint_once (poll : PollSnapshot) (fp o : String)
    (rest : List String) (st : LedgerState)
    (hval : ∀ x ∈ o :: rest, x ∈ poll.optionIds)
    (hfresh : st.claimed poll.id fp = false) :
    ∃ counts,
      (runSeq poll fp (o :: rest) st).1
        = AdmitResult.admitted counts :: List.replicate rest.length AdmitResult.alreadyVoted
      ∧ (runSeq poll fp (o :: rest) st).2.count poll.id o = st.count poll.id o + 1 := by
  have hmem : o ∈ poll.optionIds := hval o (by simp)
  have he := admitVote_fresh poll fp o st hmem hfresh
  have hrest := runSeq_claimed poll fp rest (claimVote poll fp o st)
    (fun x hx => hval x (by simp [hx])) (claimVote_claimed_self poll fp o st)
  refine ⟨poll.optionIds.map fun x => (x, (claimVote poll fp o st).count poll.id x), ?_, ?_⟩
  · simp [runSeq, he, hrest]
  · simp [runSeq, he, hrest, claimVote_count_self]

theorem admit_same_fingerprint_once_witness :
    ∃ counts,
      (runSeq pollW "fp" ("A" :: ["B", "A"]) stInit).1
        = AdmitResult.admitted counts :: List.replicate 2 AdmitResult.alreadyVoted
      ∧ (runSeq pollW "fp" ("A" :: ["B", "A"]) stInit).2.count pollW.id "A"
          = stInit.count pollW.id "A" + 1 :=
  admit_same_fingerprint_once pollW "fp" "A" ["B", "A"] stInit (by decide) rfl

/-- C4: when the uniqueness claim fails because the (poll, fingerprint) pair
is already claimed, the ledger returns AlreadyVoted, no option counter is
mutated (the whole state is unchanged), and retrying the same vote is
idempotent. -/
theorem already_voted_idempotent (poll : PollSnapshot) (fp optId : String) (st : LedgerState)
    (hmem : optId ∈ poll.optionIds)
    (hcl : st.claimed poll.id fp = true) :
    admitVote poll fp optId st = (AdmitResult.alreadyVoted, st)
    ∧ (∀ p o, (admitVote poll fp optId st).2.count p o = st.count p o)
    ∧ admitVote poll fp optId ((admitVote poll fp optId st).2)
        = (AdmitResult.alreadyVoted, st) := by
  have h := admitVote_claimed poll fp optId st hmem hcl
  refine ⟨h, ?_, ?_⟩
  · intro p o; rw [h]
  · rw [h]; exact h

theorem already_voted_idempotent_witness :
    admitVote pollW "fp" "A" stClaimed = (AdmitResult.alreadyVoted, stClaimed)
    ∧ (∀ p o, (admitVote pollW "fp" "A" stClaimed).2.count p o = stClaimed.count p o)
    ∧ admitVote pollW "fp" "A" ((admitVote pollW "fp" "A" stClaimed).2)
        = (AdmitResult.alreadyVoted, stClaimed) :=
  already_voted_idempotent pollW "fp" "A" stClaimed (by decide) rfl

theorem admitFull_rlLog (salt : String) (poll : PollSnapshot) (ctx : RequestContext)
    (origin optId : String) (now : Int) (sys : SystemState) :
    (admitFull salt poll ctx origin optId now sys).2.rlLog = (origin, now) :: sys.rlLog := by
  unfold admitFull
  dsimp only
  split
  · rfl
  · split
    · rfl
    · split <;> rfl

theorem rateAllow_false (origin : String) (now : Int) (log : List (String × Int))
    (h : rateLimitMax ≤ windowCount origin now log) :
    rateAllow origin now log = false := by
  simp [rateAllow]
  omega

theorem admitFull_rate_limited (salt : String) (poll : PollSnapshot) (ctx : RequestContext)
    (origin optId : String) (now : Int) (sys : SystemState)
    (h : rateAllow origin now sys.rlLog = false) :
    (admitFull salt poll ctx origin optId now sys).1 = Outcome.rateLimited := by
  simp [admitFull, h]

theorem outcomeOf_ne_rateLimited (r : AdmitResult) : outcomeOf r ≠ Outcome.rateLimited := by
  cases r <;> simp [outcomeOf]

theorem admitFull_not_rate_limited (salt : String) (poll : PollSnapshot) (ctx : RequestContext)
    (origin optId : String) (now : Int) (sys : SystemState)
    (h : rateAllow origin now sys.rlLog = true) :
    (admitFull salt poll ctx origin optId now sys).1 ≠ Outcome.rateLimited := by
  unfold admitFull
  dsimp only
  rw [if_neg (by simp [h])]
  split
  · simp
  · split
    · simp
    · exact outcomeOf_ne_rateLimited _

theorem windowCount_le_length (origin : String) (now : Int) (log : List (String × Int)) :
    windowCount origin now log ≤ log.length :=
  List.length_filter_le _ _

theorem runFull_rlLog (salt : String) :
    ∀ (reqs : List VoteRequest) (sys : SystemState),
      (runFull salt reqs sys).2.rlLog
        = reqs.reverse.map (fun r => (r.origin, r.time)) ++ sys.rlLog := by
  intro reqs
  induction reqs with
  | nil => intro sys; simp [runFull]
  | cons r rest ih =>
    intro sys
    simp [runFull, ih, admitFull_rlLog]

theorem runFull_append_last (salt : String) (y : VoteRequest) :
    ∀ (xs : List VoteRequest) (sys : SystemState),
      (runFull salt (xs ++ [y]) sys).1
        = (runFull salt xs sys).1
          ++ [(admitFull salt y.poll y.ctx y.origin y.optId y.time (runFull salt xs sys).2).1] := by
  intro xs
  induction xs with
  | nil => intro sys; simp [runFull]
  | cons x rest ih => intro sys; simp [runFull, ih]

theorem runFull_no_rate_limit (salt : String) :
    ∀ (reqs : List VoteRequest) (sys : SystemState),
      sys.rlLog.length + reqs.length ≤ rateLimitMax →
      ∀ o ∈ (runFull salt reqs sys).1, o ≠ Outcome.rateLimited := by
  intro reqs
  induction reqs with
  | nil => intro sys _ o ho; simp [runFull] at ho
  | cons r rest ih =>
    intro sys hlen o ho
    simp [runFull] at ho
    rcases ho with ho | ho
    · subst ho
      apply admitFull_not_rate_limited
      have h1 := windowCount_le_length r.origin r.time sys.rlLog
      have h2 : windowCount r.origin r.time sys.rlLog < rateLimitMax := by
        simp [rateLimitMax] at h1 hlen ⊢
        omega
      simp [rateAllow, h2]
    · refine ih (admitFull salt r.poll r.ctx r.origin r.optId r.time sys).2 ?_ o ho
      rw [admitFull_rlLog]
      simp at hlen ⊢
      omega

/-- C5: the rate limiter admits at most rateLimitMax attempts per origin per
rolling 60-second window across all polls: any attempt made while the
origin already has rateLimitMax recorded attempts in the window returns
RateLimited, and in a run of six attempts from one origin inside one
window the first five are never RateLimited while the sixth is. -/
theorem rate_limit_sixth_attempt :
    (∀ (salt : String) (poll : PollSnapshot) (ctx : RequestContext)
        (origin optId : String) (now : Int) (sys : SystemState),
      rateLimitMax ≤ windowCount origin now sys.rlLog →
      (admitFull salt poll ctx origin optId now sys).1 = Outcome.rateLimited)
    ∧ (∀ (salt : String) (rs : List VoteRequest) (r6 : VoteRequest) (sys : SystemState),
        sys.rlLog = [] → rs.length = 5 →
        (∀ r ∈ rs, r.origin = r6.origin) →
        (∀ r ∈ rs, r6.time - 60 < r.time ∧ r.time ≤ r6.time) →
        (∀ o ∈ (runFull salt rs sys).1, o ≠ Outcome.rateLimited)
        ∧ (runFull salt (rs ++ [r6]) sys).1.getLast? = some Outcome.rateLimited) := by
  constructor
  · intro salt poll ctx origin optId now sys h
    exact admitFull_rate_limited salt poll ctx origin optId now sys (rateAllow_false _ _ _ h)
  · intro salt rs r6 sys hlog hlen horig htime
    constructor
    · exact runFull_no_rate_limit salt rs sys (by simp [hlog, hlen, rateLimitMax])
    · rw [runFull_append_last]
      rw [List.getLast?_concat]
      have hcount : rateLimitMax ≤ windowCount r6.origin r6.time (runFull salt rs sys).2.rlLog := by
        rw [runFull_rlLog, hlog]
        have hall : ∀ e ∈ (rs.reverse.map (fun r => (r.origin, r.time)) ++ ([] : List (String × Int))),
            (decide (e.1 = r6.origin) && inWindow r6.time e.2) = true := by
          intro e he
          rw [List.append_nil, List.mem_map] at he
          obtain ⟨r, hr, rfl⟩ := he
          rw [List.mem_reverse] at hr
          simp [inWindow, rateWindow, horig r hr, (htime r hr).1, (htime r hr).2]
        unfold windowCount
        rw [List.filter_eq_self.mpr hall]
        simp [hlen, rateLimitMax]
      congr 1
      exact admitFull_rate_limited salt r6.poll r6.ctx r6.origin r6.optId r6.time _
        (rateAllow_false _ _ _ hcount)

theorem rate_limit_sixth_attempt_witness :
    (∀ o ∈ (runFull "s" rsW sysInit).1, o ≠ Outcome.rateLimited)
    ∧ (runFull "s" (rsW ++ [reqW 50]) sysInit).1.getLast? = some Outcome.rateLimited :=
  rate_limit_sixth_attempt.2 "s" rsW (reqW 50) sysInit rfl rfl (by decide) (by decide)

/-- C2: a poll is classified open exactly when expires_at is null or now is
strictly before expires_at (so at now equal to expires_at it is already
expired), and whenever now is at or past expires_at every admission on that
poll returns PollExpired and mutates no counter, regardless of identity
policy. -/
theorem expiration_gate_closed (salt : String) (poll : PollSnapshot) (ctx : RequestContext)
    (origin optId : String) (now e : Int) (sys : SystemState)
    (hexp : poll.expiresAt = Option.some e) (hle : e ≤ now)
    (hallow : rateAllow origin now sys.rlLog = true) :
    isOpen poll.expiresAt now = false
    ∧ (admitFull salt poll ctx origin optId now sys).1 = Outcome.pollExpired
    ∧ (admitFull salt poll ctx origin optId now sys).2.ledger = sys.ledger
    ∧ (∀ (ex : Option Int) (t : Int),
        isOpen ex t = true ↔ ex = Option.none ∨ ∃ b, ex = Option.some b ∧ t < b) := by
  have hopen : isOpen poll.expiresAt now = false := by
    rw [hexp]
    simp [isOpen]
    omega
  refine ⟨hopen, ?_, ?_, ?_⟩
  · simp [admitFull, hallow, hopen]
  · simp [admitFull, hallow, hopen]
  · intro ex t
    cases ex with
    | none => simp [isOpen]
    | some b => simp [isOpen]

theorem expiration_gate_closed_witness :
    isOpen pollE.expiresAt 100 = false
    ∧ (admitFull "s" pollE ctxA "1.2.3.4" "X" 100 sysInit).1 = Outcome.pollExpired
    ∧ (admitFull "s" pollE ctxA "1.2.3.4" "X" 100 sysInit).2.ledger = sysInit.ledger
    ∧ (∀ (ex : Option Int) (t : Int),
        isOpen ex t = true ↔ ex = Option.none ∨ ∃ b, ex = Option.some b ∧ t < b) :=
  expiration_gate_closed "s" pollE ctxA "1.2.3.4" "X" 100 100 sysInit rfl (by decide) rfl

/-- C3: under the device_fingerprint policy the voter fingerprint is a
function only of the poll id, the origin network address and the declared
client language header: two request contexts agreeing on address and
language resolve to the same fingerprint whatever their client-held state
(localStorage session token, IndexedDB device session id, randomness), so
clearing client-side storage never changes the fingerprint. -/
theorem device_fingerprint_client_state_independent (salt pollId : String)
    (ctx ctx2 : RequestContext) (hip : ctx.ip = ctx2.ip) (hlang : ctx.lang = ctx2.lang) :
    resolve salt VotingSecurityOption.device_fingerprint pollId ctx
      = resolve salt VotingSecurityOption.device_fingerprint pollId ctx2 := by
  simp [resolve, hip, hlang]

theorem device_fingerprint_client_state_independent_witness :
    resolve "k" VotingSecurityOption.device_fingerprint "P" ctxA
      = resolve "k" VotingSecurityOption.device_fingerprint "P" ctxB :=
  device_fingerprint_client_state_independent "k" "P" ctxA ctxB rfl rfl

theorem admitVote_count_mono (poll : PollSnapshot) (fp optId : String) (st : LedgerState)
    (p o : String) :
    st.count p o ≤ (admitVote poll fp optId st).2.count p o := by
  unfold admitVote
  split
  · split
    · exact le_refl _
    · simp only [claimVote]
      split
      · omega
      · exact le_refl _
  · exact le_refl _

theorem admitFull_ledger_mono (salt : String) (poll : PollSnapshot) (ctx : RequestContext)
    (origin optId : String) (now : Int) (sys : SystemState) (p o : String) :
    sys.ledger.count p o ≤ (admitFull salt poll ctx origin optId now sys).2.ledger.count p o := by
  unfold admitFull
  dsimp only
  split
  · exact le_refl _
  · split
    · exact le_refl _
    · split
      · exact le_refl _
      · exact admitVote_count_mono poll _ optId sys.ledger p o

/-- C8: an option's vote count is a non-negative integer and is
monotonically non-decreasing: neither a ledger admission nor a full
service admission ever decreases any option's count, and counts stay
non-negative. -/
theorem vote_count_monotone (poll : PollSnapshot) (fp optId : String) (st : LedgerState)
    (salt : String) (ctx : RequestContext) (origin : String) (now : Int) (sys : SystemState)
    (p o : String) (hnn : 0 ≤ st.count p o) (hnn2 : 0 ≤ sys.ledger.count p o) :
    (st.count p o ≤ (admitVote poll fp optId st).2.count p o
      ∧ 0 ≤ (admitVote poll fp optId st).2.count p o)
    ∧ (sys.ledger.count p o ≤ (admitFull salt poll ctx origin optId now sys).2.ledger.count p o
      ∧ 0 ≤ (admitFull salt poll ctx origin optId now sys).2.ledger.count p o) := by
  have h1 := admitVote_count_mono poll fp optId st p o
  have h2 := admitFull_ledger_mono salt poll ctx origin optId now sys p o
  exact ⟨⟨h1, le_trans hnn h1⟩, ⟨h2, le_trans hnn2 h2⟩⟩

theorem vote_count_monotone_witness :
    (stInit.count "P" "A" ≤ (admitVote pollW "fp" "A" stInit).2.count "P" "A"
      ∧ 0 ≤ (admitVote pollW "fp" "A" stInit).2.count "P" "A")
    ∧ (sysInit.ledger.count "P" "A"
          ≤ (admitFull "s" pollW ctxA "1.2.3.4" "A" 0 sysInit).2.ledger.count "P" "A"
      ∧ 0 ≤ (admitFull "s" pollW ctxA "1.2.3.4" "A" 0 sysInit).2.ledger.count "P" "A") :=
  vote_count_monotone pollW "fp" "A" stInit "s" ctxA "1.2.3.4" 0 sysInit "P" "A"
    (by decide) (by decide)

/-- C6 counterexample: two distinct code messages, differing only in the
question and option text fields that PollUpdateData carries, are identical
under the shape the claim states, so live-update messages do not have
exactly the claimed shape. -/
theorem update_shape_collision :
    toSpecShape uMsg1 = toSpecShape uMsg2 ∧ uMsg1 ≠ uMsg2 := by
  constructor
  · rfl
  · decide

/-- C6 amended: every live-update message has exactly the shape of
PollUpdateData, which also carries the poll question and each option's
text, and contains no voter-identifying information: the payload is a
function of the poll row and the aggregate option counts alone (the votes
table with its voter hashes never influences it), its total_votes is the
sum of its options' counts, and its option entries mirror the poll's
option rows. -/
theorem vote_update_aggregate_only :
    (∀ (db db2 : Db) (pollId : String), db.polls = db2.polls → db.options = db2.options →
      buildVoteUpdateDb db pollId = buildVoteUpdateDb db2 pollId)
    ∧ (∀ (p : DbPoll) (opts : List DbOption),
        (buildVoteUpdate p opts).poll_id = p.id
        ∧ (buildVoteUpdate p opts).question = p.question
        ∧ (buildVoteUpdate p opts).total_votes
            = ((buildVoteUpdate p opts).options.map fun o => o.vote_count).sum
        ∧ (buildVoteUpdate p opts).options.map (fun o => o.id)
            = (opts.filter fun o => o.poll_id == p.id).map fun o => o.id) := by
  constructor
  · intro db db2 pollId h1 h2
    unfold buildVoteUpdateDb
    rw [h1, h2]
  · intro p opts
    refine ⟨rfl, rfl, ?_, ?_⟩
    · simp only [buildVoteUpdate, List.map_map]
      congr 1
    · simp only [buildVoteUpdate, List.map_map]
      apply List.map_congr_left
      intro a _
      rfl

theorem vote_update_aggregate_only_witness :
    buildVoteUpdateDb dbA "P" = buildVoteUpdateDb dbB "P" :=
  vote_update_aggregate_only.1 dbA dbB "P" rfl rfl

/-- C7 counterexample: the concrete value browser_session is accepted by
the security check and is the wire name of the frontend's policy value,
yet it is not in the enumeration the claim states, and the claimed value
session is rejected by the check. -/
theorem security_value_browser_session :
    checkSecurity "browser_session" = true
    ∧ VotingSecurityOption.browser_session.toWire = "browser_session"
    ∧ "browser_session" ∉ specClaimedPolicies
    ∧ checkSecurity "session" = false := by
  refine ⟨rfl, rfl, ?_, rfl⟩
  decide

/-- C7 amended: a poll's security policy is always one of exactly the four
values none, browser_session, ip_address, device_fingerprint: a string
passes the security check exactly when it is one of these four, and every
frontend policy value's wire string passes the check. -/
theorem security_policy_enumeration :
    (∀ s : String, checkSecurity s = true
      ↔ (s = "none" ∨ s = "browser_session" ∨ s = "ip_address" ∨ s = "device_fingerprint"))
    ∧ (∀ v : VotingSecurityOption, checkSecurity v.toWire = true) := by
  constructor
  · intro s
    simp only [checkSecurity, Bool.or_eq_true, beq_iff_eq]
    tauto
  · intro v
    cases v <;> rfl

theorem mergeOne_id (updates : List OptionUpdate) (a : OptionUpdate) :
    (mergeOne updates a).id = a.id := by
  unfold mergeOne
  split <;> rfl

theorem mergeOne_text (updates : List OptionUpdate) (a : OptionUpdate) :
    (mergeOne updates a).text = a.text := by
  unfold mergeOne
  split <;> rfl

theorem mergeOne_none (updates : List OptionUpdate) (a : OptionUpdate)
    (h : updateLookup updates a.id = Option.none) : mergeOne updates a = a := by
  simp [mergeOne, h]

theorem mergeOne_some (updates : List OptionUpdate) (a u : OptionUpdate)
    (h : updateLookup updates a.id = Option.some u) :
    mergeOne updates a = { a with vote_count := u.vote_count } := by
  simp [mergeOne, h]

/-- C9: applying a vote_update message keeps exactly the ids and the order
of the originally fetched option list: ids, texts and length are
preserved positionwise, an option absent from the update keeps its
previous vote_count, an option present in the update takes the update's
vote_count while its id and text stay unchanged, and an option appearing
only in the update is ignored (the merged list's ids are the previous
ids). -/
theorem merge_preserves_option_list (prev updates : List OptionUpdate) :
    ((mergeOptions prev updates).map (fun o => o.id) = prev.map (fun o => o.id))
    ∧ ((mergeOptions prev updates).map (fun o => o.text) = prev.map (fun o => o.text))
    ∧ ((mergeOptions prev updates).length = prev.length)
    ∧ (∀ (i : Nat) (o : OptionUpdate), prev[i]? = some o →
        updateLookup updates o.id = Option.none →
        (mergeOptions prev updates)[i]? = some o)
    ∧ (∀ (i : Nat) (o u : OptionUpdate), prev[i]? = some o →
        updateLookup updates o.id = Option.some u →
        (mergeOptions prev updates)[i]? = some { o with vote_count := u.vote_count }) := by
  refine ⟨?_, ?_, ?_, ?_, ?_⟩
  · unfold mergeOptions
    rw [List.map_map]
    apply List.map_congr_left
    intro a _
    simp [Function.comp, mergeOne_id]
  · unfold mergeOptions
    rw [List.map_map]
    apply List.map_congr_left
    intro a _
    simp [Function.comp, mergeOne_text]
  · simp [mergeOptions]
  · intro i o h1 h2
    unfold mergeOptions
    rw [List.getElem?_map, h1]
    simp [mergeOne_none updates o h2]
  · intro i o u h1 h2
    unfold mergeOptions
    rw [List.getElem?_map, h1]
    simp [mergeOne_some updates o u h2]

theorem merge_preserves_option_list_witness :
    (mergeOptions prevOptsW updOptsW)[1]?
        = some { id := "b", text := "Beta", vote_count := (7 : Int) }
    ∧ (mergeOptions prevOptsW updOptsW)[0]?
        = some { id := "a", text := "Alpha", vote_count := (0 : Int) } :=
  ⟨(merge_preserves_option_list prevOptsW updOptsW).2.2.2.2 1
      { id := "b", text := "Beta", vote_count := 1 }
      { id := "b", text := "IGNORED", vote_count := 7 } (by decide) (by decide),
   (merge_preserves_option_list prevOptsW updOptsW).2.2.2.1 0
      { id := "a", text := "Alpha", vote_count := 0 } (by decide) (by decide)⟩

theorem runEvents_cons (n : Nat) (e : WsEvent) (es : List WsEvent) :
    runEvents n (e :: es)
      = ((runEvents (stepEvent n e).1 es).1,
         (stepEvent n e).2.toList ++ (runEvents (stepEvent n e).1 es).2) := rfl

theorem runCloses_delays :
    ∀ (k c : Nat),
      (runEvents c (List.replicate k WsEvent.close)).2
        = (List.range (min k (maxReconnectAttempts - c))).map (fun i => 2000 * (c + i + 1)) := by
  intro k
  induction k with
  | zero => intro c; simp [runEvents]
  | succ k ih =>
    intro c
    rw [List.replicate_succ]
    by_cases hc : c < maxReconnectAttempts
    · have hstep : stepEvent c WsEvent.close = (c + 1, Option.some (2000 * (c + 1))) := by
        simp [stepEvent, attemptReconnect, hc]
      have hmin : min (k + 1) (maxReconnectAttempts - c)
          = min k (maxReconnectAttempts - (c + 1)) + 1 := by
        simp [maxReconnectAttempts] at hc ⊢
        omega
      have hfun : ((fun i => 2000 * (c + i + 1)) ∘ Nat.succ)
          = (fun i => 2000 * (c + 1 + i + 1)) := by
        funext i
        show 2000 * (c + Nat.succ i + 1) = 2000 * (c + 1 + i + 1)
        omega
      rw [runEvents_cons, hstep]
      dsimp only
      rw [ih (c + 1), hmin, List.range_succ_eq_map, List.map_cons, List.map_map, hfun]
      norm_num
    · have hstep : stepEvent c WsEvent.close = (c, Option.none) := by
        simp [stepEvent, attemptReconnect, hc]
      have h0 : maxReconnectAttempts - c = 0 := by
        simp [maxReconnectAttempts] at hc ⊢
        omega
      rw [runEvents_cons, hstep]
      dsimp only
      rw [ih c, h0]
      simp

/-- C10: after a PollWebSocket connection closes, reconnection is attempted
at most 5 times, the nth attempt delayed by 2000 times n milliseconds: a
run of k closes from a fresh client schedules exactly min k 5 reconnect
attempts with delays 2000, 4000, and so on; once the counter has reached
5 without a successful open, a further close schedules nothing, and a
successful open resets the counter to 0. -/
theorem reconnect_bounded (k : Nat) :
    (runEvents 0 (List.replicate k WsEvent.close)).2
      = (List.range (min k maxReconnectAttempts)).map (fun i => 2000 * (i + 1))
    ∧ (∀ n, maxReconnectAttempts ≤ n → stepEvent n WsEvent.close = (n, Option.none))
    ∧ (∀ n, stepEvent n WsEvent.opened = (0, Option.none)) := by
  refine ⟨?_, ?_, ?_⟩
  · have h := runCloses_delays k 0
    simpa using h
  · intro n hn
    simp [stepEvent, attemptReconnect, Nat.not_lt.mpr hn]
  · intro n
    rfl

theorem reconnect_bounded_witness :
    (runEvents 0 (List.replicate 7 WsEvent.close)).2
      = (List.range (min 7 maxReconnectAttempts)).map (fun i => 2000 * (i + 1))
    ∧ stepEvent 6 WsEvent.close = (6, Option.none)
    ∧ stepEvent 3 WsEvent.opened = (0, Option.none) :=
  ⟨(reconnect_bounded 7).1, (reconnect_bounded 7).2.1 6 (by decide),
   (reconnect_bounded 7).2.2 3⟩

end PollVote
